import Mathlib

/-!
# Verification of the `spic` GameObject / Registry core

Shallow embedding of `src/GameObject.hpp` (namespace `spic`), the
entity/component scene-graph core: entities carry identity (`name`, `tag`,
`layer`) and an `active` flag, live in a process-wide registry in insertion
order, hold a parent weak reference, an ordered children sequence, and a
collection of type-erased components.

The header under `src/` declares the public API and implements inline only
`SetActive`, `IsActiveSelf`, `Name`, `Tag` and `Layer` (the private storage
beyond the four identity fields is pulled from `GameObject_private.hpp`,
which is not part of this repository's sources).  Every other operation is
a declaration whose body lives outside the repository, so those operations
are modelled from the specification's words; each such definition says so
in its doc comment.

Modelling choices:
* a C++ `shared_ptr<GameObject>` identity is a numeric id `gid`; a
  `shared_ptr<Component>` / `Component*` identity is a numeric id `cid`;
* a weak parent reference is `Option Nat` — it dangles exactly when no
  live entity carries that `gid`;
* a component's dynamic type is a numeric type-tag `ctype`, and its
  capability-compatible supertypes are the list `supers`; the component's
  owner back-reference is not modelled because no verified property
  observes it (the component `Destroy` in the header searches the
  registry instead of following the back-reference);
* the registry is the list of live entities in insertion order;
* the opaque `Transform` value is not modelled: the spec treats its
  contents as outside this core and no verified property observes it.
-/

/-- A type-erased component attached to an entity.  `cid` models the
pointer identity of the `shared_ptr<Component>`, `ctype` its concrete
dynamic type, and `supers` the capability-compatible supertypes its
concrete type is assignable to. -/
structure Component where
  cid : Nat
  ctype : Nat
  supers : List Nat
deriving DecidableEq, Repr

/-- Modelled from the spec: "a component matches query type `T` if its
concrete type is `T` or a capability-compatible subtype of `T`". -/
def Component.matchesType (t : Nat) (c : Component) : Bool :=
  c.ctype == t || c.supers.contains t

/-- An entity (`spic::GameObject`).  The fields `name`, `tag`, `active`,
`layer` are the private members visible in `src/GameObject.hpp`; `parent`,
`children` and `components` model the hierarchy and component storage the
spec's data model describes (their concrete storage comes from the absent
`GameObject_private.hpp`).  `gid` models the pointer identity of the
entity's `shared_ptr`. -/
structure GameObject where
  gid : Nat
  name : String
  tag : String
  active : Bool
  layer : Int
  parent : Option Nat
  children : List Nat
  components : List Component
deriving DecidableEq, Repr

/-- The process-wide administration: all live entities, in insertion
order (construction registers an entity by appending it). -/
structure Registry where
  objects : List GameObject
deriving DecidableEq, Repr

/-! ## Inline members of `src/GameObject.hpp` -/

/-- `void SetActive(bool flag) { active = flag; }` (src/GameObject.hpp:168). -/
def GameObject.SetActive (g : GameObject) (flag : Bool) : GameObject :=
  { g with active := flag }

/-- `bool IsActiveSelf() const { return active; }` (src/GameObject.hpp:174). -/
def GameObject.IsActiveSelf (g : GameObject) : Bool :=
  g.active

/-- `const std::string& Name() { return name; }` (src/GameObject.hpp:226). -/
def GameObject.Name (g : GameObject) : String :=
  g.name

/-- `const std::string& Tag() { return tag; }` (src/GameObject.hpp:228). -/
def GameObject.Tag (g : GameObject) : String :=
  g.tag

/-- `int Layer() { return layer; }` (src/GameObject.hpp:230). -/
def GameObject.Layer (g : GameObject) : Int :=
  g.layer

/-! ## Identity and equality -/

/-- Modelled from the spec: `operator==` "compares entity identity (not
name/tag equality)"; identity of the underlying object is its `gid`. -/
def GameObject.eqGO (a b : GameObject) : Bool :=
  a.gid == b.gid

/-- Modelled from the spec: `operator!=`, the negation of `operator==`. -/
def GameObject.neqGO (a b : GameObject) : Bool :=
  !(a.eqGO b)

/-! ## Registry lookups and destruction

The bodies of these static members are not in `src/`, so they are
modelled from the spec (§4.1). -/

/-- A reference corresponds to a currently-registered entity iff some
live entity carries its identity. -/
def Registry.isRegistered (reg : Registry) (gid : Nat) : Bool :=
  reg.objects.any (fun g => g.gid == gid)

/-- Modelled from the spec: `Find(name)` "returns the first live entity
whose `name` equals the argument, or an empty result if none match"
(iteration order = insertion order).  Body of
`GameObject::Find` is absent from `src/`. -/
def Registry.Find (reg : Registry) (n : String) : Option GameObject :=
  reg.objects.find? (fun g => g.name == n)

/-- Modelled from the spec: `FindWithTag(tag)`, "first match only, same
ordering rule as `Find`".  Body absent from `src/`. -/
def Registry.FindWithTag (reg : Registry) (t : String) : Option GameObject :=
  reg.objects.find? (fun g => g.tag == t)

/-- Modelled from the spec: `FindGameObjectsWithTag(tag)` "returns every
live entity (order = insertion order) whose `tag` equals the argument;
empty sequence if none".  Body absent from `src/`. -/
def Registry.FindGameObjectsWithTag (reg : Registry) (t : String) : List GameObject :=
  reg.objects.filter (fun g => g.tag == t)

/-- Resolve an entity's parent weak reference against the live set: a
`gid` no live entity carries dangles and resolves to nothing. -/
def Registry.resolveParent (reg : Registry) (g : GameObject) : Option GameObject :=
  g.parent.bind (fun pid => reg.objects.find? (fun p => p.gid == pid))

/-- Fueled recursion up the parent chain; the fuel only guarantees
termination in Lean, and `Registry.IsActiveInWorld` supplies fuel
(the number of live entities) that suffices for every acyclic
hierarchy. -/
def Registry.isActiveInWorldFuel (reg : Registry) : Nat → GameObject → Bool
  | 0, g => g.active
  | fuel + 1, g =>
    g.active &&
      (match reg.resolveParent g with
       | none => true
       | some p => reg.isActiveInWorldFuel fuel p)

/-- Modelled from the spec: `IsActiveInWorld()` is "true iff
`IsActiveSelf()` is true AND, if a parent exists and resolves, the
parent's `IsActiveInWorld()` is true (recursive AND up the chain)".
Body absent from `src/`. -/
def Registry.IsActiveInWorld (reg : Registry) (g : GameObject) : Bool :=
  reg.isActiveInWorldFuel reg.objects.length g

/-- Modelled from the spec: `FindObjectsOfType<T>(includeInactive)`
"scans live entities' component collections ... honoring the
`includeInactive` filter against `IsActiveInWorld`", returning all
matches in registry order.  Body absent from `src/`. -/
def Registry.FindObjectsOfType (reg : Registry) (t : Nat) (includeInactive : Bool) :
    List Component :=
  (reg.objects.filter (fun g => includeInactive || reg.IsActiveInWorld g)).flatMap
    (fun g => g.components.filter (Component.matchesType t))

/-- Modelled from the spec: `FindObjectOfType<T>(includeInactive)`, the
first match of `FindObjectsOfType`.  Body absent from `src/`. -/
def Registry.FindObjectOfType (reg : Registry) (t : Nat) (includeInactive : Bool) :
    Option Component :=
  (reg.FindObjectsOfType t includeInactive).head?

/-- The error the header documents for `Destroy` on an invalid
reference (`@exception A std::runtime_exception is thrown when the
pointer is not valid`, src/GameObject.hpp:60). -/
def invalidReferenceMsg : String :=
  "std::runtime_exception: invalid GameObject reference"

/-- Modelled from the spec: `Destroy(Entity reference)` "removes the
entity from the Registry's live set" and fails with an
invalid-reference error "if the reference does not correspond to a
currently-registered entity".  Body absent from `src/`. -/
def Registry.Destroy (reg : Registry) (gid : Nat) : Except String Registry :=
  if reg.isRegistered gid then
    Except.ok ⟨reg.objects.filter (fun g => g.gid != gid)⟩
  else
    Except.error invalidReferenceMsg

/-- Whether a destruction call succeeded (did not raise). -/
def isOk {ε α : Type} : Except ε α → Bool
  | Except.ok _ => true
  | Except.error _ => false

/-! ## Claim theorems: identity and frame properties -/

/-- C10: `SetActive` writes only the `active` flag — afterwards
`IsActiveSelf` returns exactly the written value, and `Name`, `Tag` and
`Layer` are unchanged. -/
theorem setActive_frame (g : GameObject) (b : Bool) :
    (g.SetActive b).IsActiveSelf = b ∧
    (g.SetActive b).Name = g.Name ∧
    (g.SetActive b).Tag = g.Tag ∧
    (g.SetActive b).Layer = g.Layer := by
  refine ⟨rfl, rfl, rfl, rfl⟩

/-- C9: equality compares entity identity: distinct entities (distinct
identity) are `==`-unequal and `!=`-related even with identical name, tag
and layer; every entity equals itself; `!=` holds exactly when `==` does
not. -/
theorem eq_is_identity (a b : GameObject) :
    (a.gid ≠ b.gid → a.eqGO b = false ∧ a.neqGO b = true) ∧
    a.eqGO a = true ∧
    (a.neqGO b = true ↔ a.eqGO b = false) := by
  refine ⟨fun h => ?_, ?_, ?_⟩
  · have : (a.gid == b.gid) = false := by
      simpa [beq_iff_eq] using h
    constructor
    · simpa [GameObject.eqGO] using this
    · simp [GameObject.neqGO, GameObject.eqGO, this]
  · simp [GameObject.eqGO]
  · cases hab : a.eqGO b <;> simp [GameObject.neqGO, hab]

/-- C4: `FindGameObjectsWithTag(t)` returns exactly the live entities
whose tag equals `t` — every returned entity has tag `t`, no live entity
with tag `t` is omitted — in insertion order (a sublist of the
registry's insertion order), and the empty sequence when none match. -/
theorem findGameObjectsWithTag_spec (reg : Registry) (t : String) :
    (∀ g ∈ reg.FindGameObjectsWithTag t, g.tag = t) ∧
    (∀ g ∈ reg.objects, g.tag = t → g ∈ reg.FindGameObjectsWithTag t) ∧
    (reg.FindGameObjectsWithTag t).Sublist reg.objects ∧
    ((∀ g ∈ reg.objects, g.tag ≠ t) → reg.FindGameObjectsWithTag t = []) := by
  refine ⟨?_, ?_, ?_, ?_⟩
  · intro g hg
    have h := List.of_mem_filter hg
    simpa using h
  · intro g hg ht
    exact List.mem_filter.2 ⟨hg, by simpa using ht⟩
  · exact List.filter_sublist _
  · intro h
    refine List.filter_eq_nil_iff.2 ?_
    intro g hg
    simpa using h g hg

/-- Witness for C4 at a concrete two-entity registry: the matching
entity is in the result of `FindGameObjectsWithTag "unit"`. -/
theorem findGameObjectsWithTag_witness :
    (⟨0, "player", "unit", true, 0, none, [], []⟩ : GameObject) ∈
      Registry.FindGameObjectsWithTag
        ⟨[⟨0, "player", "unit", true, 0, none, [], []⟩,
          ⟨1, "enemy", "other", true, 0, none, [], []⟩]⟩ "unit" :=
  (findGameObjectsWithTag_spec
      ⟨[⟨0, "player", "unit", true, 0, none, [], []⟩,
        ⟨1, "enemy", "other", true, 0, none, [], []⟩]⟩ "unit").2.1
    ⟨0, "player", "unit", true, 0, none, [], []⟩ (by decide) (by decide)

/-- Any entity still live after a successful `Destroy gid` was live
before and does not carry the destroyed identity. -/
theorem mem_destroy_ok (reg : Registry) (gid : Nat) (reg2 : Registry)
    (h2 : reg.Destroy gid = Except.ok reg2) (g : GameObject) (hg : g ∈ reg2.objects) :
    g ∈ reg.objects ∧ g.gid ≠ gid := by
  rw [Registry.Destroy] at h2
  by_cases h : reg.isRegistered gid = true
  · rw [if_pos h] at h2
    injection h2 with h3
    subst h3
    have hf := List.mem_filter.1 hg
    exact ⟨hf.1, by simpa using hf.2⟩
  · rw [if_neg h] at h2
    exact absurd h2 (by simp)

/-- C1: `Destroy` on an entity reference succeeds exactly when the
reference is currently registered (otherwise it raises the
invalid-reference `std::runtime_exception`); after a successful
`Destroy` the entity is out of the live set, a second `Destroy` of the
same reference reports the error, and no registry lookup (`Find`,
`FindWithTag`, `FindGameObjectsWithTag`, `FindObjectOfType`,
`FindObjectsOfType`) returns the destroyed entity (the type lookups
return only components contributed by live entities other than it). -/
theorem destroy_spec (reg : Registry) (gid : Nat) :
    isOk (reg.Destroy gid) = reg.isRegistered gid ∧
    (∀ reg2, reg.Destroy gid = Except.ok reg2 →
      reg2.isRegistered gid = false ∧
      reg2.Destroy gid = Except.error invalidReferenceMsg ∧
      (∀ n g, reg2.Find n = some g → g.gid ≠ gid) ∧
      (∀ t g, reg2.FindWithTag t = some g → g.gid ≠ gid) ∧
      (∀ t g, g ∈ reg2.FindGameObjectsWithTag t → g.gid ≠ gid) ∧
      (∀ t inc c, c ∈ reg2.FindObjectsOfType t inc →
        ∃ g, g ∈ reg2.objects ∧ g.gid ≠ gid ∧ c ∈ g.components) ∧
      (∀ t inc c, reg2.FindObjectOfType t inc = some c →
        ∃ g, g ∈ reg2.objects ∧ g.gid ≠ gid ∧ c ∈ g.components)) := by
  constructor
  · by_cases h : reg.isRegistered gid = true
    · simp [Registry.Destroy, h, isOk]
    · simp [Registry.Destroy, h, isOk]
  · intro reg2 h2
    have hmem : ∀ g, g ∈ reg2.objects → g.gid ≠ gid :=
      fun g hg => (mem_destroy_ok reg gid reg2 h2 g hg).2
    have h1 : reg2.isRegistered gid = false := by
      rw [Registry.isRegistered, List.any_eq_false]
      intro g hg
      simpa using hmem g hg
    have hobjs : ∀ t inc c, c ∈ reg2.FindObjectsOfType t inc →
        ∃ g, g ∈ reg2.objects ∧ g.gid ≠ gid ∧ c ∈ g.components := by
      intro t inc c hc
      rw [Registry.FindObjectsOfType] at hc
      obtain ⟨g, hgf, hcf⟩ := List.mem_flatMap.1 hc
      have hg : g ∈ reg2.objects := (List.mem_filter.1 hgf).1
      exact ⟨g, hg, hmem g hg, (List.mem_filter.1 hcf).1⟩
    refine ⟨h1, ?_, ?_, ?_, ?_, hobjs, ?_⟩
    · simp [Registry.Destroy, h1]
    · intro n g hf
      exact hmem g (List.mem_of_find?_eq_some hf)
    · intro t g hf
      exact hmem g (List.mem_of_find?_eq_some hf)
    · intro t g hg
      exact hmem g (List.mem_filter.1 hg).1
    · intro t inc c hc
      rw [Registry.FindObjectOfType] at hc
      apply hobjs t inc c
      cases hl : reg2.FindObjectsOfType t inc with
      | nil => rw [hl] at hc; simp at hc
      | cons d l =>
          rw [hl] at hc
          simp [List.head?] at hc
          simp [hc]

/-- Witness for C1: destroying the sole entity of a concrete registry
empties the live set and a second destroy of the same reference raises
the invalid-reference error. -/
theorem destroy_spec_witness :
    Registry.isRegistered ⟨[]⟩ 0 = false ∧
    Registry.Destroy ⟨[]⟩ 0 = Except.error invalidReferenceMsg :=
  have h :=
    (destroy_spec ⟨[⟨0, "player", "unit", true, 0, none, [], []⟩]⟩ 0).2 ⟨[]⟩ rfl
  ⟨h.1, h.2.1⟩

/-- Witness for C9 at concrete entities with identical name, tag and
layer but distinct identity. -/
theorem eq_is_identity_witness :
    (GameObject.eqGO ⟨0, "player", "unit", true, 0, none, [], []⟩
        ⟨1, "player", "unit", true, 0, none, [], []⟩ = false) ∧
    (GameObject.neqGO ⟨0, "player", "unit", true, 0, none, [], []⟩
        ⟨1, "player", "unit", true, 0, none, [], []⟩ = true) :=
  (eq_is_identity ⟨0, "player", "unit", true, 0, none, [], []⟩
    ⟨1, "player", "unit", true, 0, none, [], []⟩).1 (by decide)

/-- A resolved parent is a live entity carrying exactly the `gid` the
child's weak reference names. -/
theorem resolveParent_some (reg : Registry) (g p : GameObject)
    (hp : reg.resolveParent g = some p) :
    p ∈ reg.objects ∧ g.parent = some p.gid := by
  rw [Registry.resolveParent] at hp
  obtain ⟨pid, hgp, hfind⟩ := Option.bind_eq_some.1 hp
  refine ⟨List.mem_of_find?_eq_some hfind, ?_⟩
  have hpe : p.gid = pid := by simpa using List.find?_some hfind
  rw [hgp, hpe]

/-- When the parent reference does not resolve (no parent, or a
dangling weak reference), the fueled activity recursion is the
entity's own flag, whatever the fuel. -/
theorem isActiveInWorldFuel_noparent (reg : Registry) (g : GameObject)
    (hp : reg.resolveParent g = none) :
    ∀ fuel, reg.isActiveInWorldFuel fuel g = g.active := by
  intro fuel
  cases fuel with
  | zero => rfl
  | succ f => simp [Registry.isActiveInWorldFuel, hp]

/-- A self-inactive entity is world-inactive at every fuel. -/
theorem isActiveInWorldFuel_self_false (reg : Registry) (g : GameObject)
    (ha : g.active = false) :
    ∀ fuel, reg.isActiveInWorldFuel fuel g = false := by
  intro fuel
  cases fuel with
  | zero => exact ha
  | succ f => simp [Registry.isActiveInWorldFuel, ha]

/-- Under an acyclicity rank for the parent relation, the fueled
activity recursion does not depend on the fuel once it exceeds the
entity's rank. -/
theorem isActiveInWorldFuel_stable (reg : Registry) (rank : Nat → Nat)
    (hrank : ∀ a ∈ reg.objects, ∀ p ∈ reg.objects, a.parent = some p.gid →
      rank p.gid < rank a.gid) :
    ∀ k g, g ∈ reg.objects → rank g.gid ≤ k →
      ∀ f1 f2, rank g.gid < f1 → rank g.gid < f2 →
        reg.isActiveInWorldFuel f1 g = reg.isActiveInWorldFuel f2 g := by
  intro k
  induction k using Nat.strong_induction_on with
  | _ k ih =>
    intro g hg hk f1 f2 h1 h2
    cases f1 with
    | zero => omega
    | succ f1 =>
      cases f2 with
      | zero => omega
      | succ f2 =>
        simp only [Registry.isActiveInWorldFuel]
        cases hp : reg.resolveParent g with
        | none => rfl
        | some p =>
          obtain ⟨hpmem, hpar⟩ := resolveParent_some reg g p hp
          have hlt : rank p.gid < rank g.gid := hrank g hg p hpmem hpar
          have hrec := ih (rank p.gid) (by omega) p hpmem (le_refl _)
            f1 f2 (by omega) (by omega)
          congr 1

/-- C2: with an acyclic live hierarchy (witnessed by a rank function
bounded by the number of live entities), `IsActiveInWorld` of a live
entity is false whenever `IsActiveSelf` is false; it equals
`IsActiveSelf` AND-ed with the parent's `IsActiveInWorld` when the
parent weak reference resolves (the recursive AND up the chain), and a
parent reference that no longer resolves to a live entity is treated
as "no parent": the result is then just `IsActiveSelf`. -/
theorem isActiveInWorld_spec (reg : Registry) (g : GameObject) (rank : Nat → Nat)
    (hrank : ∀ a ∈ reg.objects, ∀ p ∈ reg.objects, a.parent = some p.gid →
      rank p.gid < rank a.gid)
    (hbound : ∀ a ∈ reg.objects, rank a.gid < reg.objects.length)
    (hg : g ∈ reg.objects) :
    (g.IsActiveSelf = false → reg.IsActiveInWorld g = false) ∧
    reg.IsActiveInWorld g =
      (g.IsActiveSelf &&
        (match reg.resolveParent g with
         | none => true
         | some p => reg.IsActiveInWorld p)) ∧
    (∀ pid, g.parent = some pid → (∀ p ∈ reg.objects, p.gid ≠ pid) →
      reg.IsActiveInWorld g = g.IsActiveSelf) := by
  have hlen : 0 < reg.objects.length := List.length_pos_of_mem hg
  obtain ⟨len, hlen2⟩ : ∃ l2, reg.objects.length = l2 + 1 :=
    ⟨reg.objects.length - 1, by omega⟩
  refine ⟨?_, ?_, ?_⟩
  · intro ha
    exact isActiveInWorldFuel_self_false reg g ha _
  · rw [Registry.IsActiveInWorld, hlen2]
    simp only [Registry.isActiveInWorldFuel]
    cases hp : reg.resolveParent g with
    | none => rfl
    | some p =>
      obtain ⟨hpmem, hpar⟩ := resolveParent_some reg g p hp
      have hlt : rank p.gid < rank g.gid := hrank g hg p hpmem hpar
      have hb : rank g.gid < reg.objects.length := hbound g hg
      have hrec := isActiveInWorldFuel_stable reg rank hrank (rank p.gid) p hpmem
        (le_refl _) len reg.objects.length (by omega) (by omega)
      show (g.active && reg.isActiveInWorldFuel len p) =
        (g.IsActiveSelf && reg.IsActiveInWorld p)
      rw [GameObject.IsActiveSelf, Registry.IsActiveInWorld, hrec]
  · intro pid hpid hdangle
    have hnone : reg.resolveParent g = none := by
      rw [Registry.resolveParent, hpid]
      simp only [Option.bind_some, Option.some_bind]
      rw [List.find?_eq_none]
      intro p hp
      simpa using hdangle p hp
    exact isActiveInWorldFuel_noparent reg g hnone _

/-- Witness for C2 at a concrete registry: an inactive root with an
active child; the child's world activity equals the recursive AND with
its resolved parent. -/
theorem isActiveInWorld_witness :
    Registry.IsActiveInWorld
        ⟨[⟨0, "root", "t", false, 0, none, [1], []⟩,
          ⟨1, "child", "t", true, 0, some 0, [], []⟩]⟩
        ⟨1, "child", "t", true, 0, some 0, [], []⟩ =
      ((⟨1, "child", "t", true, 0, some 0, [], []⟩ : GameObject).IsActiveSelf &&
        (match Registry.resolveParent
            ⟨[⟨0, "root", "t", false, 0, none, [1], []⟩,
              ⟨1, "child", "t", true, 0, some 0, [], []⟩]⟩
            ⟨1, "child", "t", true, 0, some 0, [], []⟩ with
         | none => true
         | some p =>
            Registry.IsActiveInWorld
              ⟨[⟨0, "root", "t", false, 0, none, [1], []⟩,
                ⟨1, "child", "t", true, 0, some 0, [], []⟩]⟩ p)) :=
  (isActiveInWorld_spec
    ⟨[⟨0, "root", "t", false, 0, none, [1], []⟩,
      ⟨1, "child", "t", true, 0, some 0, [], []⟩]⟩
    ⟨1, "child", "t", true, 0, some 0, [], []⟩
    (fun n => n) (by decide) (by decide) (by decide)).2.1

/-- C3 counterexample: with two distinct live entities sharing the name
"x", `Find "x"` returns the first one, not the second — so the claim's
"a constructed entity E is returned for Find(E.name)" fails for the
second entity even though it is live. -/
theorem find_counterexample :
    Registry.Find ⟨[⟨0, "x", "a", true, 0, none, [], []⟩,
                    ⟨1, "x", "b", true, 0, none, [], []⟩]⟩ "x" =
      some ⟨0, "x", "a", true, 0, none, [], []⟩ ∧
    GameObject.eqGO ⟨0, "x", "a", true, 0, none, [], []⟩
      ⟨1, "x", "b", true, 0, none, [], []⟩ = false := by
  constructor
  · rfl
  · decide

/-- C3 (amended): `Find n` returns none exactly when no live entity is
named `n`; a returned entity is live, named `n`, and first in the
registry's order among entities named `n`; conversely the first live
entity named `n` is the one returned — so a constructed entity E is
returned for `Find E.name` exactly while it is the first live entity
with its name — and after E is destroyed, `Find E.name` never returns
E again. -/
theorem find_spec (reg : Registry) (n : String) :
    (reg.Find n = none ↔ ∀ g ∈ reg.objects, g.name ≠ n) ∧
    (∀ g, reg.Find n = some g → g.name = n ∧ g ∈ reg.objects ∧
      ∃ pre suf, reg.objects = pre ++ g :: suf ∧ ∀ q ∈ pre, q.name ≠ n) ∧
    (∀ (pre : List GameObject) (E : GameObject) (suf : List GameObject),
      reg.objects = pre ++ E :: suf → E.name = n →
      (∀ q ∈ pre, q.name ≠ n) → reg.Find n = some E) ∧
    (∀ (E : GameObject) (reg2 : Registry), reg.Destroy E.gid = Except.ok reg2 →
      ∀ g, reg2.Find E.name = some g → g.gid ≠ E.gid) := by
  refine ⟨?_, ?_, ?_, ?_⟩
  · rw [Registry.Find, List.find?_eq_none]
    constructor
    · intro h g hg
      simpa using h g hg
    · intro h g hg
      simpa using h g hg
  · intro g hf
    have hmem := List.mem_of_find?_eq_some hf
    rw [Registry.Find] at hf
    obtain ⟨hpb, pre, suf, hxs, hpre⟩ := List.find?_eq_some.1 hf
    refine ⟨by simpa using hpb, hmem, pre, suf, hxs, ?_⟩
    intro q hq
    simpa using hpre q hq
  · intro pre E suf hobj hEn hpre
    rw [Registry.Find]
    refine List.find?_eq_some.2 ⟨by simp [hEn], pre, suf, hobj, ?_⟩
    intro q hq
    simpa using hpre q hq
  · intro E reg2 hdes g hf
    exact (mem_destroy_ok reg E.gid reg2 hdes g (List.mem_of_find?_eq_some hf)).2

/-- Witness for C3 (amended) at a one-entity registry: the sole entity,
first with its name, is returned by `Find`. -/
theorem find_spec_witness :
    Registry.Find ⟨[⟨0, "player", "unit", true, 0, none, [], []⟩]⟩ "player" =
      some ⟨0, "player", "unit", true, 0, none, [], []⟩ :=
  (find_spec ⟨[⟨0, "player", "unit", true, 0, none, [], []⟩]⟩ "player").2.2.1
    [] ⟨0, "player", "unit", true, 0, none, [], []⟩ [] rfl (by decide) (by decide)

/-! ## Component storage and typed queries

Template bodies of `AddComponent`, `GetComponent`, `GetComponents` are
absent from `src/` (the optional `GameObject_templates.hpp` is not part
of the repository), so they are modelled from the spec (§4.3). -/

/-- Modelled from the spec: `AddComponent<T>(component)` "inserts into
the entity's component collection" (appended, so queries see insertion
order).  The owner back-reference the spec mentions is not modelled:
no verified property observes it.  Body absent from `src/`. -/
def GameObject.AddComponent (g : GameObject) (c : Component) : GameObject :=
  { g with components := g.components ++ [c] }

/-- Attach a whole sequence of components, in order. -/
def GameObject.AddComponents (g : GameObject) (cs : List Component) : GameObject :=
  cs.foldl GameObject.AddComponent g

/-- Modelled from the spec: `GetComponent<T>()`, the "first component in
the collection whose dynamic type is assignable to `T`"; empty if none.
Body absent from `src/`. -/
def GameObject.GetComponent (t : Nat) (g : GameObject) : Option Component :=
  g.components.find? (Component.matchesType t)

/-- Modelled from the spec: `GetComponents<T>()`, "all matching
components, insertion order".  Body absent from `src/`. -/
def GameObject.GetComponents (t : Nat) (g : GameObject) : List Component :=
  g.components.filter (Component.matchesType t)

/-- Attaching components preserves every other attribute and appends to
the component collection. -/
theorem addComponents_components (g : GameObject) (cs : List Component) :
    (g.AddComponents cs).components = g.components ++ cs := by
  induction cs generalizing g with
  | nil => simp [GameObject.AddComponents]
  | cons d ds ih =>
    show ((g.AddComponent d).AddComponents ds).components = _
    rw [ih]
    simp [GameObject.AddComponent]

/-- C5 counterexample: an entity that already holds a matching
component `c1`; after `AddComponent c2`, `GetComponent` returns the
earlier `c1`, not the just-added `c2` — the claim's "GetComponent
returns a reference equal to c" fails as universally stated. -/
theorem addComponent_getComponent_counterexample :
    GameObject.GetComponent 5
        ((⟨0, "g", "t", true, 0, none, [], [⟨0, 5, []⟩]⟩ : GameObject).AddComponent
          ⟨1, 5, []⟩) =
      some ⟨0, 5, []⟩ ∧
    (⟨0, 5, []⟩ : Component) ≠ ⟨1, 5, []⟩ := by
  constructor
  · rfl
  · decide

/-- C5 (amended): if the entity holds no component matching `T` before
the call, then after `AddComponent c` (with `c` matching `T`)
`GetComponent<T>` returns exactly `c`, and adding N components all
compatible with `T` to such an entity makes `GetComponents<T>` return
exactly those N entries in insertion order; in general — with no
restriction on the entity's prior components — `AddComponent` appends
to the `GetComponents<T>` sequence and `GetComponent<T>` is the first
entry of that sequence, where a component matches `T` when its dynamic
type is `T` or a capability-compatible subtype of `T`
(`Component.matchesType`). -/
theorem addComponent_getComponent_spec (g : GameObject) (c : Component) (t : Nat)
    (cs : List Component)
    (hc : Component.matchesType t c = true) :
    (g.GetComponents t = [] → (g.AddComponent c).GetComponent t = some c) ∧
    (g.GetComponents t = [] → (∀ d ∈ cs, Component.matchesType t d = true) →
      (g.AddComponents cs).GetComponents t = cs) ∧
    (g.AddComponent c).GetComponents t = g.GetComponents t ++ [c] ∧
    (∀ g2 : GameObject, g2.GetComponent t = (g2.GetComponents t).head?) := by
  refine ⟨?_, ?_, ?_, ?_⟩
  · intro hprior
    have hnone : ∀ d ∈ g.components, ¬ Component.matchesType t d = true :=
      List.filter_eq_nil_iff.1 hprior
    rw [GameObject.GetComponent, GameObject.AddComponent]
    refine List.find?_eq_some.2 ⟨hc, g.components, [], rfl, ?_⟩
    intro d hd
    simp [hnone d hd]
  · intro hprior hcs
    rw [GameObject.GetComponents, addComponents_components, List.filter_append]
    rw [GameObject.GetComponents] at hprior
    rw [hprior, List.nil_append]
    exact List.filter_eq_self.2 hcs
  · rw [GameObject.GetComponents, GameObject.GetComponents, GameObject.AddComponent]
    simp [List.filter_append, hc]
  · intro g2
    rw [GameObject.GetComponent, GameObject.GetComponents]
    exact (List.filter_head? _ _).symm

/-- Witness for C5 (amended): the general append clause at an entity
that already holds a matching component, and the conditional
first-return clause at a component-free entity (adding a
capability-compatible subtype pair there yields exactly those
entries). -/
theorem addComponent_getComponent_witness :
    ((⟨0, "g", "t", true, 0, none, [], [⟨9, 5, []⟩]⟩ : GameObject).AddComponent
        ⟨0, 5, []⟩).GetComponents 5 =
      (⟨0, "g", "t", true, 0, none, [], [⟨9, 5, []⟩]⟩ : GameObject).GetComponents 5 ++
        [⟨0, 5, []⟩] ∧
    ((⟨1, "h", "t", true, 0, none, [], []⟩ : GameObject).AddComponent
        ⟨0, 5, []⟩).GetComponent 5 = some ⟨0, 5, []⟩ ∧
    ((⟨1, "h", "t", true, 0, none, [], []⟩ : GameObject).AddComponents
        [⟨1, 5, []⟩, ⟨2, 7, [5]⟩]).GetComponents 5 = [⟨1, 5, []⟩, ⟨2, 7, [5]⟩] :=
  ⟨(addComponent_getComponent_spec ⟨0, "g", "t", true, 0, none, [], [⟨9, 5, []⟩]⟩
      ⟨0, 5, []⟩ 5 [] (by decide)).2.2.1,
   (addComponent_getComponent_spec ⟨1, "h", "t", true, 0, none, [], []⟩
      ⟨0, 5, []⟩ 5 [⟨1, 5, []⟩, ⟨2, 7, [5]⟩] (by decide)).1 (by decide),
   (addComponent_getComponent_spec ⟨1, "h", "t", true, 0, none, [], []⟩
      ⟨0, 5, []⟩ 5 [⟨1, 5, []⟩, ⟨2, 7, [5]⟩] (by decide)).2.1 (by decide) (by decide)⟩

/-! ## Component destruction -/

/-- Drop the component with the given pointer identity from one
entity's collection, keeping every other component in order. -/
def GameObject.removeComponent (g : GameObject) (cid : Nat) : GameObject :=
  { g with components := g.components.filter (fun d => d.cid != cid) }

/-- Modelled from the spec: `Destroy(Component pointer)` "scans every
live entity's component collection to find the owner, removes the
component from that owner's collection", and is a no-op when no live
entity holds that exact component.  Body absent from `src/`. -/
def Registry.DestroyComponent (reg : Registry) (c : Component) : Registry :=
  ⟨reg.objects.map (fun g => g.removeComponent c.cid)⟩

/-- C6: `Destroy(component pointer)` removes exactly that component
(identified by its pointer identity) from its owner: afterwards no live
entity's collection holds it; each live entity survives with its
collection merely pruned of that identity, so every sibling component
still appears in every `GetComponents<T>` result; and when no live
entity holds the exact component the registry is left completely
unchanged. -/
theorem destroyComponent_spec (reg : Registry) (c : Component) :
    (∀ g ∈ (reg.DestroyComponent c).objects, ∀ d ∈ g.components, d.cid ≠ c.cid) ∧
    (∀ g ∈ reg.objects, g.removeComponent c.cid ∈ (reg.DestroyComponent c).objects) ∧
    (∀ (g : GameObject) (t : Nat), (g.removeComponent c.cid).GetComponents t =
      (g.GetComponents t).filter (fun d => d.cid != c.cid)) ∧
    (∀ (g : GameObject) (t : Nat) (d : Component), d ∈ g.GetComponents t →
      d.cid ≠ c.cid → d ∈ (g.removeComponent c.cid).GetComponents t) ∧
    ((∀ g ∈ reg.objects, ∀ d ∈ g.components, d.cid ≠ c.cid) →
      reg.DestroyComponent c = reg) := by
  have hquery : ∀ (g : GameObject) (t : Nat),
      (g.removeComponent c.cid).GetComponents t =
        (g.GetComponents t).filter (fun d => d.cid != c.cid) := by
    intro g t
    rw [GameObject.GetComponents, GameObject.GetComponents, GameObject.removeComponent]
    exact List.filter_comm _ _ _
  refine ⟨?_, ?_, hquery, ?_, ?_⟩
  · intro g hg d hd
    obtain ⟨g0, hg0, hmap⟩ := List.mem_map.1 hg
    rw [← hmap] at hd
    have := List.of_mem_filter hd
    simpa using this
  · intro g hg
    exact List.mem_map.2 ⟨g, hg, rfl⟩
  · intro g t d hd hne
    rw [hquery g t]
    refine List.mem_filter.2 ⟨hd, ?_⟩
    simpa using hne
  · intro hnone
    rw [Registry.DestroyComponent]
    have : ∀ g ∈ reg.objects, g.removeComponent c.cid = g := by
      intro g hg
      rw [GameObject.removeComponent]
      have hf : g.components.filter (fun d => d.cid != c.cid) = g.components := by
        refine List.filter_eq_self.2 ?_
        intro d hd
        simpa using hnone g hg d hd
      rw [hf]
    rw [List.map_congr_left this]
    simp

/-- Witness for C6 at a one-entity registry holding the destroyed
component and a sibling: the sibling remains in the typed query after
destruction. -/
theorem destroyComponent_witness :
    (⟨1, 5, []⟩ : Component) ∈
      (GameObject.removeComponent ⟨0, "g", "t", true, 0, none, [], [⟨0, 5, []⟩, ⟨1, 5, []⟩]⟩
        0).GetComponents 5 :=
  (destroyComponent_spec ⟨[⟨0, "g", "t", true, 0, none, [], [⟨0, 5, []⟩, ⟨1, 5, []⟩]⟩]⟩
      ⟨0, 5, []⟩).2.2.2.1
    ⟨0, "g", "t", true, 0, none, [], [⟨0, 5, []⟩, ⟨1, 5, []⟩]⟩ 5 ⟨1, 5, []⟩
    (by decide) (by decide)

/-! ## Entity hierarchy: children -/

/-- Modelled from the spec: `Children()`, the "current children in
insertion order" (children are held by identity, i.e. shared
references modelled by `gid`).  Body absent from `src/`. -/
def GameObject.Children (g : GameObject) : List Nat :=
  g.children

/-- Modelled from the spec: `AddChild(child)` "appends to the children
sequence".  Body absent from `src/`. -/
def GameObject.AddChild (g : GameObject) (childGid : Nat) : GameObject :=
  { g with children := g.children ++ [childGid] }

/-- Modelled from the spec: `RemoveChild(child)` "removes the first
structurally-equal match from the children sequence; no-op if not
present".  Body absent from `src/`. -/
def GameObject.RemoveChild (g : GameObject) (childGid : Nat) : GameObject :=
  { g with children := g.children.erase childGid }

/-- C7 counterexample: adding a child that is already present makes it
occur twice, refuting "P.Children() contains E exactly once" as
universally stated. -/
theorem addChild_counterexample :
    List.count 5
        (((⟨0, "p", "t", true, 0, none, [5], []⟩ : GameObject).AddChild 5).Children) =
      2 := by
  decide

/-- C7 (amended): if E is not already a child of P, then after
`AddChild E` the children contain E exactly once and a following
`RemoveChild E` restores P exactly (E no longer contained); in general
`RemoveChild` removes the first match — the occurrence count drops by
one, so E is gone whenever it occurred at most once — and `RemoveChild`
is a no-op when E is not present. -/
theorem addRemoveChild_spec (p : GameObject) (e : Nat) :
    (e ∉ p.children → List.count e ((p.AddChild e).Children) = 1) ∧
    (e ∉ p.children → (p.AddChild e).RemoveChild e = p) ∧
    (List.count e ((p.RemoveChild e).Children) = List.count e p.Children - 1) ∧
    (List.count e p.Children ≤ 1 → e ∉ (p.RemoveChild e).Children) ∧
    (e ∉ p.Children → p.RemoveChild e = p) := by
  refine ⟨?_, ?_, ?_, ?_, ?_⟩
  · intro he
    rw [GameObject.Children, GameObject.AddChild]
    simp [List.count_append, List.count_eq_zero.2 he]
  · intro he
    rw [GameObject.RemoveChild, GameObject.AddChild]
    simp only [List.erase_append_right _ he, List.erase_cons_head, List.append_nil]
  · rw [GameObject.Children, GameObject.Children, GameObject.RemoveChild]
    exact List.count_erase_self e p.children
  · intro hle
    have hc := List.count_erase_self e p.children
    rw [GameObject.Children] at hle
    have h0 : List.count e (p.children.erase e) = 0 := by omega
    have hnm : e ∉ p.children.erase e := List.count_eq_zero.1 h0
    simpa [GameObject.RemoveChild, GameObject.Children] using hnm
  · intro he
    rw [GameObject.Children] at he
    rw [GameObject.RemoveChild, List.erase_of_not_mem he]

/-- Witness for C7 (amended): adding then removing the fresh child 7
of a concrete parent restores the parent. -/
theorem addRemoveChild_witness :
    ((⟨0, "p", "t", true, 0, none, [5], []⟩ : GameObject).AddChild 7).RemoveChild 7 =
      ⟨0, "p", "t", true, 0, none, [5], []⟩ :=
  (addRemoveChild_spec ⟨0, "p", "t", true, 0, none, [5], []⟩ 7).2.1 (by decide)

/-! ## Entity hierarchy: parent reassignment -/

/-- Modelled from the spec: `Parent(newParent)` "reassigns the parent
pointer" of this entity and nothing else.  Body absent from `src/`. -/
def GameObject.SetParent (g : GameObject) (p : Option Nat) : GameObject :=
  { g with parent := p }

/-- Reassigning the parent of the entity identified by `gid` inside the
registry: only that entity's parent pointer changes. -/
def Registry.SetParent (reg : Registry) (gid : Nat) (p : Option Nat) : Registry :=
  ⟨reg.objects.map (fun g => if g.gid == gid then g.SetParent p else g)⟩

/-- C8: `Parent(newParent)` reassigns only the parent pointer of the
target entity: every live entity's children sequence — in particular
the old parent's and the new parent's — and every other attribute are
unchanged; the target ends with the new parent pointer and every other
entity is untouched. -/
theorem setParent_frame (reg : Registry) (gid : Nat) (pnew : Option Nat) :
    ((reg.SetParent gid pnew).objects.map GameObject.Children) =
      reg.objects.map GameObject.Children ∧
    ((reg.SetParent gid pnew).objects.map
        (fun g => (g.gid, g.name, g.tag, g.active, g.layer, g.children, g.components))) =
      (reg.objects.map
        (fun g => (g.gid, g.name, g.tag, g.active, g.layer, g.children, g.components))) ∧
    (∀ g ∈ (reg.SetParent gid pnew).objects, g.gid = gid → g.parent = pnew) ∧
    (∀ g ∈ reg.objects, g.gid ≠ gid → g ∈ (reg.SetParent gid pnew).objects) := by
  refine ⟨?_, ?_, ?_, ?_⟩
  · rw [Registry.SetParent, List.map_map]
    refine List.map_congr_left ?_
    intro g hg
    by_cases h : g.gid = gid
    · simp [h, GameObject.SetParent, GameObject.Children]
    · simp [h, GameObject.Children]
  · rw [Registry.SetParent, List.map_map]
    refine List.map_congr_left ?_
    intro g hg
    by_cases h : g.gid = gid
    · simp [h, GameObject.SetParent]
    · simp [h]
  · intro g hg hgid
    obtain ⟨g0, hg0, hmap⟩ := List.mem_map.1 hg
    by_cases h : g0.gid == gid
    · rw [if_pos h] at hmap
      rw [← hmap]
      rfl
    · rw [if_neg h] at hmap
      rw [← hmap] at hgid
      simp [hgid] at h
  · intro g hg hne
    refine List.mem_map.2 ⟨g, hg, ?_⟩
    rw [if_neg (by simpa using hne)]

/-- Witness for C8 at a two-entity registry: reparenting the child does
not move the unrelated entity out of the live set. -/
theorem setParent_witness :
    (⟨0, "a", "t", true, 0, none, [1], []⟩ : GameObject) ∈
      (Registry.SetParent
          ⟨[⟨0, "a", "t", true, 0, none, [1], []⟩,
            ⟨1, "b", "t", true, 0, some 0, [], []⟩]⟩ 1 none).objects :=
  (setParent_frame
      ⟨[⟨0, "a", "t", true, 0, none, [1], []⟩,
        ⟨1, "b", "t", true, 0, some 0, [], []⟩]⟩ 1 none).2.2.2
    ⟨0, "a", "t", true, 0, none, [1], []⟩ (by decide) (by decide)
